import Mathlib

/-!
Shallow embedding of `src/pghstore/_native.py` (the pghstore hstore codec).

Strings are modelled as `List Char`.  The module models the byte/text domain
the source operates on: the regular expression `PAIR_RE` is compiled from an
ASCII pattern, so the character classes `\s`, `\S`, `.`, `[^,]`, `[^\\"]` are
embedded with their ASCII semantics, and the per-field `decode(encoding)`
calls (lines 246-247 and 254-255 of the source, identity on already-decoded
text) are modelled as the identity on the text domain, as the spec's section 6
treats encoding as a boundary concern outside the grammar.
-/

namespace PgHstore

/-- Python's whitespace class for the ASCII range, as used by the regex
classes `\s` and `\S` in `PAIR_RE` and by `str.strip()` in `parse`. -/
def isPySpace (c : Char) : Bool :=
  c = ' ' || c = '\t' || c = '\n' || c = '\r' || c = '\x0b' || c = '\x0c'

/-- Character-wise expansion used to model Python's `str.replace` on a
single-character needle. -/
def concatMapCh (f : Char → List Char) : List Char → List Char
  | [] => []
  | c :: rest => f c ++ concatMapCh f rest

/-- First replacement pass of `escape` (line 288): `\` becomes `\\`. -/
def escBackslash (c : Char) : List Char :=
  if c = '\\' then ['\\', '\\'] else [c]

/-- Second replacement pass of `escape` (line 288): `"` becomes `\"`. -/
def escQuote (c : Char) : List Char :=
  if c = '"' then ['\\', '"'] else [c]

/-- Embeds `escape` (lines 280-288): `s.replace('\\','\\\\').replace('"','\\"')`,
the backslash pass running strictly before the quote pass. -/
def escape (s : List Char) : List Char :=
  concatMapCh escQuote (concatMapCh escBackslash s)

/-- Embeds `unescape` (lines 263-277): `ESCAPE_RE.sub(r'\1', s)` with
`ESCAPE_RE = \\(.)`.  `re.sub` scans left to right; a backslash followed by a
non-newline character is replaced by that character; `.` does not match a
newline, so a backslash directly before a newline is left in place and the
scan resumes at the newline; a trailing lone backslash is left in place. -/
def unescape : List Char → List Char
  | [] => []
  | c :: rest =>
    if c = '\\' then
      match rest with
      | [] => ['\\']
      | d :: rest2 => if d = '\n' then c :: d :: unescape rest2 else d :: unescape rest2
    else c :: unescape rest

/-- Key capture of `PAIR_RE`: quoted (`kq`, content still escaped) or bare
(`kb`). -/
inductive KeyTok where
  | kq (content : List Char)
  | kb (content : List Char)
deriving DecidableEq

/-- Value capture of `PAIR_RE`: quoted (`vq`, content still escaped), the
bare `NULL` literal (`vn`), or a bare value run (`vb`). -/
inductive ValTok where
  | vq (content : List Char)
  | vn
  | vb (content : List Char)
deriving DecidableEq

/-- The quoted-span scanner `(?:[^\\"]|\\.)*"` applied after an opening `"`.
The two unit alternatives are disjoint on their first character, so the
greedy star is deterministic: it stops exactly at the first unescaped `"`
(the closing quote) and fails when a backslash is last or directly precedes
a newline (`.` does not match newline), since the star then stops on the
backslash and the closing-quote check fails with no backtracking choices
left.  Returns the captured (still escaped) content and the remainder after
the closing quote. -/
def scanQuoted : List Char → Option (List Char × List Char)
  | [] => none
  | c :: rest =>
    if c = '"' then some ([], rest)
    else if c = '\\' then
      match rest with
      | [] => none
      | d :: rest2 =>
        if d = '\n' then none
        else (scanQuoted rest2).map (fun p => ('\\' :: d :: p.1, p.2))
    else (scanQuoted rest).map (fun p => (c :: p.1, p.2))

/-- A quoted token `"(?:[^\\"]|\\.)*"` at the current position: an opening
quote followed by the scanned span. -/
def matchQuotedTok : List Char → Option (List Char × List Char)
  | [] => none
  | c :: rest => if c = '"' then scanQuoted rest else none

/-- The pair terminator `(?:,|$)`.  `,` is the preferred alternative; `$`
(no `re.MULTILINE`) matches at the end of the string or just before a
newline that is the last character, consuming nothing.  The argument is
always a true suffix of the whole subject string, so those two `$`
positions are `[]` and `['\n']`. -/
def matchTerm : List Char → Option (List Char)
  | [] => some []
  | c :: rest =>
    if c = ',' then some rest
    else if c = '\n' && rest = [] then some (c :: rest)
    else none

/-- The `NULL` value alternative; `PAIR_RE` is compiled with
`re.IGNORECASE`, so the four letters match case-insensitively. -/
def matchNullTok : List Char → Option (List Char)
  | a :: b :: c :: d :: rest =>
    if a.toLower = 'n' && b.toLower = 'u' && c.toLower = 'l' && d.toLower = 'l' then
      some rest
    else none
  | _ => none

/-- The bare-value alternative `(?P<vb>[^,]+)` followed by the terminator.
The greedy run stops at the first comma or the end of the string, where the
terminator then always succeeds, so no backtracking into the run is ever
needed. -/
def matchValueBare (s : List Char) : Option (ValTok × List Char) :=
  let v := s.takeWhile (fun c => c ≠ ',')
  if v = [] then none
  else (matchTerm (s.drop v.length)).map (fun r => (ValTok.vb v, r))

/-- The `NULL` and bare alternatives, tried in the pattern's order after the
quoted alternative has failed (including the case where `NULL` matched but
the terminator did not, which backtracks into the bare run). -/
def matchValueNoQuote (s : List Char) : Option (ValTok × List Char) :=
  match matchNullTok s with
  | some rest =>
    match matchTerm rest with
    | some r => some (ValTok.vn, r)
    | none => matchValueBare s
  | none => matchValueBare s

/-- The full value alternation `(?:"(?P<vq>...)"|(?P<vn>NULL)|(?P<vb>[^,]+))`
with its terminator, at a fixed position: quoted first, then `NULL`, then
bare, with failure of the terminator after an earlier alternative falling
through to the later ones at the same position. -/
def matchValueAt (s : List Char) : Option (ValTok × List Char) :=
  match matchQuotedTok s with
  | some (cap, rest) =>
    match matchTerm rest with
    | some r => some (ValTok.vq cap, r)
    | none => matchValueNoQuote s
  | none => matchValueNoQuote s

/-- The greedy `\s*` between `=>` and the value, with backtracking: the
maximal whitespace run is preferred, and on failure the run is shortened one
character at a time, retrying the value alternation at each position. -/
def matchValueWs (s : List Char) : Option (ValTok × List Char) :=
  match s with
  | c :: rest =>
    if isPySpace c then
      match matchValueWs rest with
      | some r => some r
      | none => matchValueAt s
    else matchValueAt s
  | [] => matchValueAt []

/-- The separator-and-value tail `\s*=>\s*(value)(?:,|$)` after a key
candidate.  The first `\s*` is deterministic: `=` is not whitespace, so only
the maximal whitespace run can be followed by `=>`. -/
def matchAfterKey (s : List Char) : Option (ValTok × List Char) :=
  match s.dropWhile isPySpace with
  | c1 :: c2 :: r => if c1 = '=' && c2 = '>' then matchValueWs r else none
  | _ => none

/-- The lazy bare-key alternative `(?P<kb>\S+?)` with the rest of the
pattern: the key is grown one non-whitespace character at a time, the
shortest extension whose tail matches winning; a whitespace character or the
end of input stops the growth and fails the alternative. -/
def matchBareKeyFrom (acc : List Char) : List Char → Option (KeyTok × ValTok × List Char)
  | [] => none
  | c :: rest =>
    if isPySpace c then none
    else
      match matchAfterKey rest with
      | some (v, r) => some (KeyTok.kb (acc ++ [c]), v, r)
      | none => matchBareKeyFrom (acc ++ [c]) rest

/-- One attempt of the whole `PAIR_RE` pattern anchored at the current
position: the quoted-key alternative is preferred, and if any later part of
the pattern fails the engine falls back to the bare-key alternative at the
same start position (the quoted span itself is deterministic, so it offers
no other backtracking choices). -/
def matchPairAt (s : List Char) : Option (KeyTok × ValTok × List Char) :=
  match matchQuotedTok s with
  | some (cap, rest) =>
    match matchAfterKey rest with
    | some (v, r) => some (KeyTok.kq cap, v, r)
    | none => matchBareKeyFrom [] s
  | none => matchBareKeyFrom [] s

/-- The scan step of `PAIR_RE.finditer` (line 238): the pattern is tried at
successive start positions until it matches.  Returns the gap length skipped
before the match together with the match's captures and the remainder after
the match. -/
def searchPair : List Char → Option (Nat × KeyTok × ValTok × List Char)
  | [] => none
  | c :: rest =>
    match matchPairAt (c :: rest) with
    | some (kt, vt, r) => some (0, kt, vt, r)
    | none =>
      match searchPair rest with
      | some (i, kt, vt, r) => some (i + 1, kt, vt, r)
      | none => none

/-- Key extraction (lines 241-247).  Python tests the capture's truthiness:
`if kq:` is false both when the group did not participate and when it
captured the empty string, in which case `key` falls back to
`match.group('kb')`, which is `None` when the key matched as quoted — so a
quoted empty key yields an absent key.  The `key.decode(encoding)` step is
the identity on the text domain. -/
def extractKey : KeyTok → Option (List Char)
  | KeyTok.kq cap => if cap = [] then none else some (unescape cap)
  | KeyTok.kb content => some content

/-- Value extraction (lines 248-255).  `if vq:` is false for an empty quoted
value, so `vn` (then `None`) and `vb` (also `None` then) are consulted and
the value collapses to `None`; a bare `NULL` match makes the value `None`;
the `value.decode(encoding)` step is the identity on the text domain. -/
def extractValue : ValTok → Option (List Char)
  | ValTok.vq cap => if cap = [] then none else some (unescape cap)
  | ValTok.vn => none
  | ValTok.vb content => some content

/-- Observable event of the `parse` generator: a yielded pair or the raised
`ValueError('malformed hstore value: position %d')` carrying the offset. -/
inductive PEvent where
  | pair (key value : Option (List Char))
  | err (pos : Nat)
deriving DecidableEq

/-- The generator loop of `parse` (lines 237-259) over the remaining suffix
`s`, with `offset` the absolute offset of the end of the last match.  Before
each match the gap `string[offset:match.start()]` must strip to nothing,
else `ValueError` is raised at `offset` (the `offset > match.start()` arm of
line 239 is unreachable: `finditer` yields non-overlapping matches in
increasing positions).  After the last match the trailing suffix must also
strip to nothing (line 258; `offset > len(string)` is likewise
unreachable).  Fuel bounds the recursion; every match consumes at least
three characters, so `s.length + 1` is always enough. -/
def parseLoop : Nat → List Char → Nat → List PEvent
  | 0, _, _ => []
  | fuel + 1, s, offset =>
    match searchPair s with
    | none =>
      if s.any (fun c => !isPySpace c) then [PEvent.err offset] else []
    | some (gap, kt, vt, rest) =>
      if (s.take gap).any (fun c => !isPySpace c) then [PEvent.err offset]
      else
        PEvent.pair (extractKey kt) (extractValue vt) ::
          parseLoop fuel rest (offset + (s.length - rest.length))

/-- Embeds `parse` (lines 224-259) as the list of events the generator
produces when fully consumed: the yielded pairs in order, followed by the
raised error if one occurs. -/
def parse (s : List Char) : List PEvent :=
  parseLoop (s.length + 1) s 0

/-- The per-entry output of the `dump` loop after its leading quote (lines
185-191): the escaped key, then `"=>NULL` for a null value or
`"=>"escaped-value"` otherwise. -/
def entryBody (k : List Char) (v : Option (List Char)) : List Char :=
  match v with
  | none => escape k ++ ['"', '=', '>', 'N', 'U', 'L', 'L']
  | some val => escape k ++ ['"', '=', '>', '"'] ++ escape val ++ ['"']

/-- The writes of the `dump` loop for every entry after the first, each
prefixed with `,"` (line 184). -/
def dumpsRest : List (List Char × Option (List Char)) → List Char
  | [] => []
  | (k, v) :: rest => [',', '"'] ++ entryBody k v ++ dumpsRest rest

/-- Embeds `dump`/`dumps` (lines 86-91 and 165-191) on an ordered sequence
of text pairs — the inputs the claims concern, for which the `key_map` /
`value_map` / type-check branches of lines 166-179 are all skipped.  The
first entry is prefixed with `"` (line 181), every later one with `,"`
(line 184); `dumps` collects the same writes into one string. -/
def dumps : List (List Char × Option (List Char)) → List Char
  | [] => []
  | (k, v) :: rest => ['"'] ++ entryBody k v ++ dumpsRest rest

/-- Modelled from the spec's words for claim C5 (spec sections 4.3 and 6),
for comparison with `dumps`: one pair renders as the double-quoted escaped
key, then `=>`, then either the double-quoted escaped value or the bare
uppercase token `NULL`. -/
def renderPairSpec (k : List Char) (v : Option (List Char)) : List Char :=
  ['"'] ++ escape k ++ ['"', '=', '>'] ++
    (match v with
     | none => ['N', 'U', 'L', 'L']
     | some val => ['"'] ++ escape val ++ ['"'])

/-- Modelled from the spec's words for claim C5: rendered pairs joined by
single commas, with no leading comma on the first pair and no trailing
separator. -/
def joinCommaSpec : List (List Char) → List Char
  | [] => []
  | [x] => x
  | x :: y :: ys => x ++ [','] ++ joinCommaSpec (y :: ys)

/-- A Python value as seen by `load` (lines 194-203): either a file-like
object whose `read()` returns its whole content as a string, or a plain
string (which has no `read` attribute). -/
inductive PyObj where
  | pystr (s : List Char)
  | pyfile (content : List Char)
deriving DecidableEq

/-- Rank used to justify termination of `load`'s self-call. -/
def PyObj.rank : PyObj → Nat
  | PyObj.pystr _ => 0
  | PyObj.pyfile _ => 1

/-- The `TypeError` message of lines 201-202. -/
def loadTypeError : List Char :=
  ('f' :: "ile must be a readable file object that implements read() method".toList)

/-- Embeds `load` (lines 194-203).  For a file-like argument,
`getattr(file, 'read', None)` is callable and line 203 calls `load` itself
— not `loads` — on the string returned by `read()`; for a string argument
the `read` attribute is `None`, which is not callable, so the `TypeError`
of lines 200-202 is raised. -/
def load : PyObj → Except (List Char) (List PEvent)
  | PyObj.pystr _ => Except.error loadTypeError
  | PyObj.pyfile content => load (PyObj.pystr content)
termination_by f => f.rank
decreasing_by simp [PyObj.rank]

/-! Equation lemmas for `unescape`, spelling out its three scanning cases. -/

theorem unescape_cons (c : Char) (rest : List Char) (h : c ≠ '\\') :
    unescape (c :: rest) = c :: unescape rest := by
  rw [unescape.eq_def]
  simp [h]

theorem unescape_bs_cons (c : Char) (rest : List Char) (h : c ≠ '\n') :
    unescape ('\\' :: c :: rest) = c :: unescape rest := by
  rw [unescape.eq_def]
  simp [h]

theorem unescape_bs_newline (rest : List Char) :
    unescape ('\\' :: '\n' :: rest) = '\\' :: '\n' :: unescape rest := rfl

theorem unescape_bs_nil : unescape ['\\'] = ['\\'] := rfl

theorem unescape_nil : unescape [] = [] := rfl

/-- Concatenation distributes over the character-wise replacement passes. -/
theorem concatMapCh_append (f : Char → List Char) :
    ∀ a b : List Char, concatMapCh f (a ++ b) = concatMapCh f a ++ concatMapCh f b
  | [], _ => rfl
  | c :: a, b => by
    simp [concatMapCh, concatMapCh_append f a b]

/-- Unfolding `escape` one source character at a time. -/
theorem escape_cons (c : Char) (s : List Char) :
    escape (c :: s) = concatMapCh escQuote (escBackslash c) ++ escape s := by
  simp [escape, concatMapCh, concatMapCh_append]

/-- Round trip of the escaper pair: every escape sequence `escape` emits is
a backslash followed by a backslash or a quote, which `unescape` maps back
to the original character. -/
theorem unescape_escape : ∀ s : List Char, unescape (escape s) = s
  | [] => rfl
  | c :: s => by
    rw [escape_cons]
    by_cases hb : c = '\\'
    · subst hb
      show unescape ('\\' :: '\\' :: escape s) = '\\' :: s
      rw [unescape_bs_cons '\\' (escape s) (by decide), unescape_escape s]
    · by_cases hq : c = '"'
      · subst hq
        show unescape ('\\' :: '"' :: escape s) = '"' :: s
        rw [unescape_bs_cons '"' (escape s) (by decide), unescape_escape s]
      · have e1 : concatMapCh escQuote (escBackslash c) = [c] := by
          simp [escBackslash, escQuote, concatMapCh, hb, hq]
        rw [e1, List.singleton_append, unescape_cons c (escape s) hb, unescape_escape s]

/-- Spec-side pair rendering agrees with the body written by the `dump`
loop, up to the leading quote it factors out. -/
theorem renderPairSpec_eq_entryBody (k : List Char) (v : Option (List Char)) :
    renderPairSpec k v = '"' :: entryBody k v := by
  cases v <;> simp [renderPairSpec, entryBody]

/-- The `dump` loop starting at an arbitrary entry renders that entry and
the comma-prefixed remaining entries exactly as the comma-join of the
spec-side renderings. -/
theorem dumps_cons_joinComma :
    ∀ (ps : List (List Char × Option (List Char))) (k : List Char) (v : Option (List Char)),
      ['"'] ++ entryBody k v ++ dumpsRest ps =
        joinCommaSpec (renderPairSpec k v :: ps.map (fun kv => renderPairSpec kv.1 kv.2))
  | [], k, v => by
    simp [dumpsRest, joinCommaSpec, renderPairSpec_eq_entryBody]
  | (k2, v2) :: rest, k, v => by
    simp only [List.map_cons, joinCommaSpec, dumpsRest]
    rw [← dumps_cons_joinComma rest k2 v2]
    simp [renderPairSpec_eq_entryBody]

/-- The events of the `parse` generator are always some pairs followed by at
most one error, with the error (if any) the final event. -/
theorem parseLoop_pairs_before_err :
    ∀ (fuel : Nat) (s : List Char) (off : Nat),
      ∃ (ps : List (Option (List Char) × Option (List Char))) (tl : List PEvent),
        parseLoop fuel s off = ps.map (fun p => PEvent.pair p.1 p.2) ++ tl ∧
          (tl = [] ∨ ∃ n, tl = [PEvent.err n])
  | 0, _, _ => ⟨[], [], rfl, Or.inl rfl⟩
  | fuel + 1, s, off => by
    cases hs : searchPair s with
    | none =>
      by_cases hw : s.any (fun c => !isPySpace c)
      · exact ⟨[], [PEvent.err off], by simp [parseLoop, hs, hw], Or.inr ⟨off, rfl⟩⟩
      · exact ⟨[], [], by simp [parseLoop, hs, hw], Or.inl rfl⟩
    | some m =>
      obtain ⟨gap, kt, vt, rest⟩ := m
      by_cases hw : (s.take gap).any (fun c => !isPySpace c)
      · exact ⟨[], [PEvent.err off], by simp [parseLoop, hs, hw], Or.inr ⟨off, rfl⟩⟩
      · obtain ⟨ps, tl, heq, htl⟩ :=
          parseLoop_pairs_before_err fuel rest (off + (s.length - rest.length))
        exact ⟨(extractKey kt, extractValue vt) :: ps, tl,
          by simp [parseLoop, hs, hw, heq], htl⟩

/-- C1 (refuted by the code): the claim asserts `parse (dumps D) = D` for
text-only documents, explicitly including empty-string keys and values; but
for the document `[('a', '')]` the serializer emits `"a"=>""`, whose empty
quoted value capture is falsy in Python (`if vq:` at line 249), so `parse`
falls through to the non-participating `vn`/`vb` groups and yields the null
sentinel instead of the empty string. -/
theorem c1_roundtrip_fails_on_empty_value :
    dumps [(['a'], some [])] = ['"', 'a', '"', '=', '>', '"', '"'] ∧
      parse (dumps [(['a'], some [])]) = [PEvent.pair (some ['a']) none] ∧
      parse (dumps [(['a'], some [])]) ≠ [PEvent.pair (some ['a']) (some [])] := by
  refine ⟨?_, ?_, ?_⟩ <;> decide

/-- C2 (refuted by the code): a quoted empty value is *not* distinct from
the null sentinel — `parse 'd=>""'` yields `None` for `d` because the empty
`vq` capture is falsy at line 249; the unquoted/quoted `NULL` distinction
itself does hold. -/
theorem c2_value_classification :
    parse ['d', '=', '>', '"', '"'] = [PEvent.pair (some ['d']) none] ∧
      parse ['c', '=', '>', 'n', 'u', 'l', 'l'] = [PEvent.pair (some ['c']) none] ∧
      parse ['d', '=', '>', '"', 'N', 'U', 'L', 'L', '"'] =
        [PEvent.pair (some ['d']) (some ['N', 'U', 'L', 'L'])] := by
  refine ⟨?_, ?_, ?_⟩ <;> decide

/-- C3 counterexample: `parse 'a=>1 garbage b=>2'` raises no error at all —
the bare-value group `[^,]+` is greedy up to the next comma or end of input,
so the whole text after `a=>` becomes one bare value and the input parses as
a single pair. -/
theorem c3_counterexample_no_error :
    parse "a=>1 garbage b=>2".toList =
      [PEvent.pair (some ['a']) (some "1 garbage b=>2".toList)] := by
  decide

/-- C3 amended: a bare value absorbs everything up to the next comma or end
of input, so `parse 'a=>1 garbage b=>2'` yields the single pair
`('a', '1 garbage b=>2')` without error; a malformed-input `ValueError` is
raised, carrying the offset of the end of the last match, exactly when
non-whitespace content sits in a gap between matches or after the last one —
e.g. `parse 'a=>1,garbage'` yields `('a','1')` and then raises at offset 5,
immediately after the first pair and its comma. -/
theorem c3_malformed_gap_error :
    parse "a=>1 garbage b=>2".toList =
        [PEvent.pair (some ['a']) (some "1 garbage b=>2".toList)] ∧
      parse "a=>1,garbage".toList =
        [PEvent.pair (some ['a']) (some ['1']), PEvent.err 5] := by
  constructor <;> decide

/-- C4 counterexample: `unescape` does not replace backslash-newline — the
`.` of `ESCAPE_RE = \\(.)` does not match a newline, so the claimed
"backslash followed by any character" rule fails at that input. -/
theorem c4_counterexample_backslash_newline :
    unescape ['\\', '\n'] = ['\\', '\n'] ∧ unescape ['\\', '\n'] ≠ ['\n'] := by
  constructor <;> decide

/-- C4 amended: `unescape (escape s) = s` for every string `s` (including
embedded quotes and backslashes); `escape` doubles backslashes strictly
before quoting quotes; `unescape` replaces backslash followed by any
non-newline character with that character alone, and leaves a backslash that
precedes a newline in place; both functions are total. -/
theorem c4_escape_unescape_roundtrip :
    (∀ s : List Char, unescape (escape s) = s) ∧
      (∀ (c : Char) (rest : List Char), c ≠ '\n' →
        unescape ('\\' :: c :: rest) = c :: unescape rest) ∧
      (∀ rest : List Char,
        unescape ('\\' :: '\n' :: rest) = '\\' :: '\n' :: unescape rest) :=
  ⟨unescape_escape, fun c rest h => unescape_bs_cons c rest h,
    fun rest => unescape_bs_newline rest⟩

/-- Witness for C4's theorem at concrete inputs. -/
theorem c4_escape_unescape_roundtrip_witness :
    unescape (escape ['\\', '"']) = ['\\', '"'] ∧ unescape ['\\', 'a', 'x'] = ['a', 'x'] :=
  ⟨c4_escape_unescape_roundtrip.1 ['\\', '"'],
    c4_escape_unescape_roundtrip.2.1 'a' ['x'] (by decide)⟩

/-- C5: the serializer's output is exactly the pairs in order, each rendered
as a double-quoted escaped key, `=>`, and either a double-quoted escaped
value or the bare uppercase `NULL`, joined by single commas with no leading
or trailing separator. -/
theorem c5_dump_output_format (ps : List (List Char × Option (List Char))) :
    dumps ps = joinCommaSpec (ps.map (fun kv => renderPairSpec kv.1 kv.2)) := by
  cases ps with
  | nil => rfl
  | cons hd tl =>
    obtain ⟨k, v⟩ := hd
    exact dumps_cons_joinComma tl k v

/-- C6 (refuted by the code): a quoted empty key does *not* yield an
empty-string key — the empty `kq` capture is falsy in Python (`if kq:` at
line 242), so `key` falls back to the non-participating `kb` group, which is
`None`, and the yielded pair has an absent key. -/
theorem c6_empty_quoted_key_absent :
    parse ['"', '"', '=', '>', '"', 'v', '"'] = [PEvent.pair none (some ['v'])] := by
  decide

/-- C7 counterexample: whitespace immediately before a separating comma
after a bare value is *not* insignificant — it is captured into the bare
value by `[^,]+`, so `parse 'a=>1 ,b=>2'` yields `('a', '1 ')` while
`parse 'a=>1,b=>2'` yields `('a', '1')`. -/
theorem c7_counterexample_space_before_comma :
    parse "a=>1 ,b=>2".toList =
        [PEvent.pair (some ['a']) (some ['1', ' ']), PEvent.pair (some ['b']) (some ['2'])] ∧
      parse "a=>1 ,b=>2".toList ≠ parse "a=>1,b=>2".toList := by
  constructor <;> decide

/-- C7 amended: whitespace around `=>` and after the pair-separating comma
is insignificant — `parse 'a=>1, b => 2'` yields the same pairs as
`parse 'a=>1,b=>2'` — but whitespace between a bare value and the following
comma becomes part of the value. -/
theorem c7_whitespace_tolerance :
    parse "a=>1, b => 2".toList = parse "a=>1,b=>2".toList ∧
      parse "a=>1, b => 2".toList =
        [PEvent.pair (some ['a']) (some ['1']), PEvent.pair (some ['b']) (some ['2'])] := by
  constructor <;> decide

/-- C8 (refuted by the code): `load` never returns a parse result — line 203
recursively calls `load` (not `loads`) on the string returned by `read()`,
and a string has no `read` attribute, so the `TypeError` of lines 200-202 is
raised for every readable source, even one whose content `'a=>1'` parses
cleanly. -/
theorem c8_load_always_type_errors :
    load (PyObj.pyfile "a=>1".toList) = Except.error loadTypeError ∧
      parse "a=>1".toList = [PEvent.pair (some ['a']) (some ['1'])] := by
  constructor
  · simp [load]
  · decide

/-- C9: lazy error ordering — for every input, the events of the `parse`
generator are the yielded pairs of the valid prefix in order followed by at
most one malformed-input error, which (when present) is the last event, so
a consumer sees every valid-prefix pair before the error and the error
surfaces exactly at the next element; concretely, for a two-pair prefix
followed by garbage the two pairs precede the error at offset 10. -/
theorem c9_lazy_error_ordering :
    (∀ s : List Char,
        ∃ (ps : List (Option (List Char) × Option (List Char))) (tl : List PEvent),
          parse s = ps.map (fun p => PEvent.pair p.1 p.2) ++ tl ∧
            (tl = [] ∨ ∃ n, tl = [PEvent.err n])) ∧
      parse "a=>1,b=>2,!".toList =
        [PEvent.pair (some ['a']) (some ['1']), PEvent.pair (some ['b']) (some ['2']),
          PEvent.err 10] :=
  ⟨fun s => parseLoop_pairs_before_err (s.length + 1) s 0, by decide⟩

/-- C10: `unescape` is total, and a trailing backslash that the scan reaches
unpaired (the preceding text does not itself end in a backslash) is
preserved verbatim. -/
theorem c10_unescape_trailing_backslash :
    ∀ t : List Char, t.getLast? ≠ some '\\' →
      unescape (t ++ ['\\']) = unescape t ++ ['\\']
  | [], _ => rfl
  | [c], h => by
    have hc : c ≠ '\\' := by
      intro e
      exact h (by simp [e])
    simp only [List.cons_append, List.nil_append]
    rw [unescape_cons c ['\\'] hc, unescape_cons c [] hc, unescape_bs_nil, unescape_nil]
    rfl
  | c :: d :: rest, h => by
    have h2 : (d :: rest).getLast? ≠ some '\\' := by
      rwa [List.getLast?_cons_cons] at h
    by_cases hb : c = '\\'
    · subst hb
      have h3 : rest.getLast? ≠ some '\\' := by
        cases rest with
        | nil => simp
        | cons e r => rwa [List.getLast?_cons_cons] at h2
      by_cases hd : d = '\n'
      · subst hd
        have ih := c10_unescape_trailing_backslash rest h3
        simp [List.cons_append, unescape_bs_newline, ih]
      · cases rest with
        | nil =>
          simp only [List.cons_append, List.nil_append]
          rw [unescape_bs_cons d ['\\'] hd, unescape_bs_cons d [] hd, unescape_bs_nil,
            unescape_nil]
          rfl
        | cons e r =>
          have ih := c10_unescape_trailing_backslash (e :: r) h3
          simp only [List.cons_append] at ih ⊢
          rw [unescape_bs_cons d (e :: (r ++ ['\\'])) hd, unescape_bs_cons d (e :: r) hd,
            ih]
          rfl
    · have ih := c10_unescape_trailing_backslash (d :: rest) h2
      simp only [List.cons_append] at ih ⊢
      rw [unescape_cons c (d :: (rest ++ ['\\'])) hb, unescape_cons c (d :: rest) hb, ih]
      rfl

/-- Witness for C10's theorem at a concrete input. -/
theorem c10_unescape_trailing_backslash_witness :
    (['a'].getLast? ≠ some '\\') ∧ unescape (['a'] ++ ['\\']) = unescape ['a'] ++ ['\\'] :=
  ⟨by decide, c10_unescape_trailing_backslash ['a'] (by decide)⟩

end PgHstore
